import Mathlib

/-!
# Verification of the `short-video-maker` persistent image cache

Shallow embedding of the cache core of the repository:

* `src/short-creator/libraries/FileCache.ts` — the TTL'd filesystem blob
  store (`FileCache`): index map, blob files, `has`/`get`/`getFileUrl`/
  `getDataUrl`/`setFromDataUrl`/`delete`/`cleanup`/`clear`/`getStats`.
* `src/short-creator/libraries/CachedOpenAIImages.ts` — the cache-aside
  wrapper (`CachedOpenAIImagesAPI.findVideo`): key derivation, hit/miss
  decision, write-back, failure isolation.

Modelling conventions:
* The filesystem is an association list from absolute paths to byte lists;
  `fs.existsSync` is key membership, `fs.writeFileSync` insert-or-replace,
  `fs.unlinkSync` removal, `fs.statSync(..).size` the stored list's length.
* The JavaScript `Map` backing the index is an association list with the
  insertion-order semantics of `Map.set` / `Map.delete`.
* `Date.now()` is an explicit `now : Nat` argument (milliseconds).
* The on-disk copy of `index.json` is a separate `diskIndex` field;
  `saveIndex` copies the in-memory index over it.
* Logging is side-effect free and not modelled; the `deletedCount` that
  `cleanup` logs is returned as the first component of its result.
* MD5 (used only to derive blob file names from keys) is modelled by an
  injective deterministic stand-in digest; no claim below depends on the
  digest's bit-level value, only on its determinism.
-/

/-- Association-list lookup, mirroring `Map.prototype.get`. -/
def alGet {β : Type} : List (String × β) → String → Option β
  | [], _ => none
  | (k2, v) :: rest, k => if k2 = k then some v else alGet rest k

/-- Association-list insert-or-replace, mirroring `Map.prototype.set`
(an existing key keeps its position; a new key is appended). -/
def alSet {β : Type} : List (String × β) → String → β → List (String × β)
  | [], k, v => [(k, v)]
  | (k2, v2) :: rest, k, v =>
    if k2 = k then (k2, v) :: rest else (k2, v2) :: alSet rest k v

/-- Association-list removal, mirroring `Map.prototype.delete`. -/
def alRemove {β : Type} : List (String × β) → String → List (String × β)
  | [], _ => []
  | (k2, v) :: rest, k => if k2 = k then alRemove rest k else (k2, v) :: alRemove rest k

@[simp] theorem alGet_nil {β : Type} (k : String) : alGet ([] : List (String × β)) k = none := rfl

@[simp] theorem alGet_cons {β : Type} (k2 : String) (v : β) (rest : List (String × β)) (k : String) :
    alGet ((k2, v) :: rest) k = if k2 = k then some v else alGet rest k := rfl

theorem alGet_alSet_self {β : Type} (m : List (String × β)) (k : String) (v : β) :
    alGet (alSet m k v) k = some v := by
  induction m with
  | nil => simp [alSet]
  | cons p rest ih =>
    obtain ⟨k2, v2⟩ := p
    by_cases h : k2 = k <;> simp [alSet, h, ih]

theorem alGet_alSet_ne {β : Type} (m : List (String × β)) (k k2 : String) (v : β)
    (h : k ≠ k2) : alGet (alSet m k v) k2 = alGet m k2 := by
  induction m with
  | nil => simp [alSet, h]
  | cons p rest ih =>
    obtain ⟨k3, v3⟩ := p
    by_cases h3 : k3 = k
    · subst h3
      simp [alSet, h]
    · simp [alSet, h3, ih]

theorem alGet_alRemove_self {β : Type} (m : List (String × β)) (k : String) :
    alGet (alRemove m k) k = none := by
  induction m with
  | nil => simp [alRemove]
  | cons p rest ih =>
    obtain ⟨k2, v2⟩ := p
    by_cases h : k2 = k
    · simpa [alRemove, h] using ih
    · simpa [alRemove, h] using ih

theorem alGet_alRemove_ne {β : Type} (m : List (String × β)) (k k2 : String)
    (h : k ≠ k2) : alGet (alRemove m k) k2 = alGet m k2 := by
  induction m with
  | nil => simp [alRemove]
  | cons p rest ih =>
    obtain ⟨k3, v3⟩ := p
    by_cases h3 : k3 = k
    · have h4 : ¬ k3 = k2 := by rw [h3]; exact h
      simp [alRemove, h3, h4, h, ih]
    · by_cases h4 : k3 = k2
      · subst h4
        simp [alRemove, h3]
      · simp [alRemove, h3, h4, ih]

theorem alGet_alRemove_none {β : Type} (m : List (String × β)) (k k2 : String)
    (h : alGet m k2 = none) : alGet (alRemove m k) k2 = none := by
  by_cases hk : k = k2
  · subst hk
    exact alGet_alRemove_self m k
  · rw [alGet_alRemove_ne m k k2 hk]
    exact h

/-! ## Orientation

Modelled from the spec: `src/types/shorts.ts` (the `OrientationEnum`
string enum) is not among the provided sources; the spec fixes the
orientation domain as `enum{portrait, landscape}` and states that the
derived key embeds "the orientation tag" — the strings `"portrait"` and
`"landscape"` that the template literal interpolation produces. -/

inductive OrientationEnum where
  | portrait
  | landscape
deriving DecidableEq, Repr

/-- The string a template literal interpolation of the enum value yields. -/
def orientationString : OrientationEnum → String
  | .portrait => "portrait"
  | .landscape => "landscape"

/-! ## Key derivation

`CachedOpenAIImages.ts` line 32:
`` `${searchTerms.join("-")}-${orientation}`.replace(/[^a-z0-9-]/gi, "").toLowerCase() ``
-/

/-- A character kept by `replace(/[^a-z0-9-]/gi, "")`: ASCII letters
(either case, thanks to the `i` flag), ASCII digits, and the hyphen. -/
def isKeyChar (c : Char) : Bool :=
  c.isAlpha || c.isDigit || c = '-'

/-- The cache key derived in `CachedOpenAIImagesAPI.findVideo`. -/
def cacheKey (searchTerms : List String) (orientation : OrientationEnum) : String :=
  String.mk ((((String.intercalate "-" searchTerms
    ++ "-" ++ orientationString orientation).toList).filter isKeyChar).map Char.toLower)

/-! ## Data URL parsing

`FileCache.setFromDataUrl` matches its input against the JavaScript
regular expression `/^data:image\/(\w+);base64,(.+)$/` (no `m`, no `s`
flag): a literal `data:image/`, a nonempty maximal run of word characters
`[A-Za-z0-9_]` (deterministic because the following `;` is not a word
character), the literal `;base64,`, then one or more characters none of
which is a line terminator, reaching the end of the string. -/

/-- JavaScript `\w`: ASCII letters, digits, underscore. -/
def isWordChar (c : Char) : Bool :=
  c.isAlpha || c.isDigit || c = '_'

/-- A JavaScript regex line terminator (what `.` refuses to match). -/
def isLineTerminator (c : Char) : Bool :=
  c = '\n' || c = '\r' || c = ' ' || c = ' '

/-- `dataUrl.match(/^data:image\/(\w+);base64,(.+)$/)`, returning the two
capture groups (media subtype, base64 payload) on success. Stated over the
character list of the input. -/
def matchDataUrl (s : String) : Option (String × String) :=
  let cs := s.toList
  if "data:image/".toList.isPrefixOf cs then
    let rest := cs.drop 11
    let fmt := rest.takeWhile isWordChar
    let rest2 := rest.dropWhile isWordChar
    if fmt.length > 0 && ";base64,".toList.isPrefixOf rest2 then
      let payload := rest2.drop 8
      if payload.length > 0 && payload.all (fun c => !(isLineTerminator c)) then
        some (String.mk fmt, String.mk payload)
      else
        none
    else
      none
  else
    none

/-! ## Base64 (`Buffer.from(base64Data, "base64")` and `buf.toString("base64")`)

Node's base64 decoder ignores characters outside the standard alphabet and
decodes the remaining sextets in groups of four (a trailing group of two or
three sextets yields one or two bytes). Bytes are modelled as `Nat`s below 256. -/

/-- Value of a standard base64 alphabet character. -/
def b64Val (c : Char) : Option Nat :=
  if 'A' ≤ c && c ≤ 'Z' then some (c.toNat - 65)
  else if 'a' ≤ c && c ≤ 'z' then some (c.toNat - 97 + 26)
  else if '0' ≤ c && c ≤ '9' then some (c.toNat - 48 + 52)
  else if c = '+' then some 62
  else if c = '/' then some 63
  else none

/-- Recombine 6-bit groups into bytes. -/
def sextetsToBytes : List Nat → List Nat
  | a :: b :: c :: d :: rest =>
    (a * 4 + b / 16) :: ((b % 16) * 16 + c / 4) :: ((c % 4) * 64 + d) :: sextetsToBytes rest
  | [a, b] => [a * 4 + b / 16]
  | [a, b, c] => [a * 4 + b / 16, (b % 16) * 16 + c / 4]
  | _ => []

/-- `Buffer.from(s, "base64")` as a list of bytes. -/
def b64decode (s : String) : List Nat :=
  sextetsToBytes (s.toList.filterMap b64Val)

/-- Standard base64 alphabet, indexed by sextet value. -/
def b64Char (n : Nat) : Char :=
  "ABCDEFGHIJKLMNOPQRSTUVWXYZabcdefghijklmnopqrstuvwxyz0123456789+/".toList.getD n 'A'

/-- Encode bytes to base64 characters with `=` padding. -/
def bytesToB64 : List Nat → List Char
  | b1 :: b2 :: b3 :: rest =>
    b64Char (b1 / 4) :: b64Char ((b1 % 4) * 16 + b2 / 16)
      :: b64Char ((b2 % 16) * 4 + b3 / 64) :: b64Char (b3 % 64) :: bytesToB64 rest
  | [b1, b2] => [b64Char (b1 / 4), b64Char ((b1 % 4) * 16 + b2 / 16), b64Char ((b2 % 16) * 4), '=']
  | [b1] => [b64Char (b1 / 4), b64Char ((b1 % 4) * 16), '=', '=']
  | [] => []

/-- `buf.toString("base64")`. -/
def b64encode (bytes : List Nat) : String :=
  String.mk (bytesToB64 bytes)

/-- Stand-in for `crypto.createHash("md5").update(id).digest("hex")`: a
deterministic (and, unlike real MD5 only in the astronomically unlikely
collision case, injective) digest of the key used solely to derive blob
file names. -/
def md5hex (s : String) : String :=
  "md5-" ++ s

/-! ## The `FileCache` state -/

/-- `CacheEntry` from `FileCache.ts`. -/
structure CacheEntry where
  id : String
  filePath : String
  createdAt : Nat
  ttl : Nat
deriving DecidableEq, Repr

/-- State of one `FileCache` instance plus the slice of the filesystem it
owns: the in-memory index `Map`, the persisted `index.json` contents, and
the blob files (path to bytes). -/
structure FileCache where
  cacheDir : String
  defaultTTL : Nat
  index : List (String × CacheEntry)
  diskIndex : List (String × CacheEntry)
  fs : List (String × List Nat)
deriving DecidableEq, Repr

/-- `saveIndex`: rewrite `index.json` from the in-memory map. -/
def saveIndex (s : FileCache) : FileCache :=
  { s with diskIndex := s.index }

/-- `FileCache.delete(id)`: best-effort unlink of the backing file, then
remove the index record and persist the index; no-op for an absent key. -/
def FileCache.delete (id : String) (s : FileCache) : FileCache :=
  match alGet s.index id with
  | none => s
  | some entry =>
    let fs1 := if (alGet s.fs entry.filePath).isSome then alRemove s.fs entry.filePath else s.fs
    saveIndex { s with fs := fs1, index := alRemove s.index id }

/-- `FileCache.has(id)` at time `now`: live-entry check with self-healing
eviction of expired entries (via `delete`) and of entries whose backing
file is missing (index record only). Returns the boolean plus the
possibly-mutated state. -/
def FileCache.has (now : Nat) (id : String) (s : FileCache) : Bool × FileCache :=
  match alGet s.index id with
  | none => (false, s)
  | some entry =>
    if now - entry.createdAt > entry.ttl then
      (false, FileCache.delete id s)
    else if (alGet s.fs entry.filePath).isSome then
      (true, s)
    else
      (false, saveIndex { s with index := alRemove s.index id })

/-- `FileCache.get(id)`: the entry's file path when live. -/
def FileCache.get (now : Nat) (id : String) (s : FileCache) : Option String × FileCache :=
  let r := FileCache.has now id s
  if r.1 then
    match alGet r.2.index id with
    | some entry => (some entry.filePath, r.2)
    | none => (none, r.2)
  else
    (none, r.2)

/-- `FileCache.getFileUrl(id)`: `file://` reference to a live entry. -/
def FileCache.getFileUrl (now : Nat) (id : String) (s : FileCache) : Option String × FileCache :=
  let r := FileCache.get now id s
  match r.1 with
  | none => (none, r.2)
  | some filePath => (some ("file://" ++ filePath), r.2)

/-- `FileCache.getDataUrl(id)`: re-embed a live entry's bytes as a
`data:image/png;base64,...` URL (the subtype is hard-coded to `png`). -/
def FileCache.getDataUrl (now : Nat) (id : String) (s : FileCache) : Option String × FileCache :=
  let r := FileCache.get now id s
  match r.1 with
  | none => (none, r.2)
  | some filePath =>
    match alGet r.2.fs filePath with
    | some buf => (some ("data:image/png;base64," ++ b64encode buf), r.2)
    | none => (none, r.2)

/-- `ttl || this.defaultTTL` — note that a passed `ttl` of `0` is falsy in
JavaScript and therefore also falls back to the default. -/
def ttlOrDefault (ttlOpt : Option Nat) (s : FileCache) : Nat :=
  match ttlOpt with
  | some t => if t = 0 then s.defaultTTL else t
  | none => s.defaultTTL

/-- `FileCache.setFromDataUrl(id, dataUrl, ttl?)`: parse the data URL
(throwing `"Invalid data URL format"` before any mutation when it does not
match), decode the payload, write the blob file, insert the index entry
with `createdAt = now`, persist the index, and return the file path. -/
def FileCache.setFromDataUrl (now : Nat) (id dataUrl : String) (ttlOpt : Option Nat)
    (s : FileCache) : Except String String × FileCache :=
  match matchDataUrl dataUrl with
  | none => (Except.error "Invalid data URL format", s)
  | some (format, base64Data) =>
    let buffer := b64decode base64Data
    let filePath := s.cacheDir ++ "/" ++ md5hex id ++ "." ++ format
    let entry : CacheEntry :=
      { id := id, filePath := filePath, createdAt := now, ttl := ttlOrDefault ttlOpt s }
    let s1 := { s with fs := alSet s.fs filePath buffer }
    let s2 := saveIndex { s1 with index := alSet s1.index id entry }
    (Except.ok filePath, s2)

/-- `FileCache.cleanup()` at time `now`: delete every expired entry,
returning the `deletedCount` the code logs, plus the new state. The
JavaScript loop iterates the `Map` while deleting only the entry under the
cursor, which visits exactly the entries present when the loop started. -/
def FileCache.cleanup (now : Nat) (s : FileCache) : Nat × FileCache :=
  s.index.foldl
    (fun acc kv =>
      if now - kv.2.createdAt > kv.2.ttl then (acc.1 + 1, FileCache.delete kv.1 acc.2)
      else acc)
    (0, s)

/-- `FileCache.clear()`: delete every entry regardless of TTL. -/
def FileCache.clear (s : FileCache) : FileCache :=
  s.index.foldl (fun acc kv => FileCache.delete kv.1 acc) s

/-- `FileCache.getStats()`: the index `Map`'s size, and the summed
`statSync` size of every entry whose file exists (missing files skipped). -/
def FileCache.getStats (s : FileCache) : Nat × Nat :=
  (s.index.length,
   s.index.foldl
     (fun acc kv =>
       match alGet s.fs kv.2.filePath with
       | some buf => acc + buf.length
       | none => acc)
     0)

/-! ## The cache-aside wrapper -/

/-- The `Video` shape returned by both providers (`id`, `url`, `width`,
`height`). -/
structure Video where
  id : String
  url : String
  width : Nat
  height : Nat
deriving DecidableEq, Repr

/-- `CachedOpenAIImagesAPI.findVideo`. The external generation
collaborator (`OpenAIImagesAPI.findVideo`) is the function argument `gen`;
the third component of the result counts how many times this call invoked
it (0 on a cache hit, 1 on a miss). -/
def CachedOpenAIImagesAPI.findVideo
    (gen : List String → Nat → List String → OrientationEnum → Video)
    (searchTerms : List String) (minDurationSeconds : Nat) (excludeIds : List String)
    (orientation : OrientationEnum) (now : Nat) (s : FileCache) :
    Video × FileCache × Nat :=
  let key := cacheKey searchTerms orientation
  let r0 := FileCache.getFileUrl now key s
  match r0.1 with
  | some cachedUrl =>
    let width := if orientation = OrientationEnum.portrait then 1080 else 1920
    let height := if orientation = OrientationEnum.portrait then 1920 else 1080
    ({ id := key, url := cachedUrl, width := width, height := height }, r0.2, 0)
  | none =>
    let result := gen searchTerms minDurationSeconds excludeIds orientation
    match FileCache.setFromDataUrl now key result.url none r0.2 with
    | (Except.error _, s2) => (result, s2, 1)
    | (Except.ok _, s2) =>
      let r1 := FileCache.getFileUrl now key s2
      match r1.1 with
      | some fileUrl => ({ result with id := key, url := fileUrl }, r1.2, 1)
      | none => (result, r1.2, 1)

example : cacheKey ["spooky", "playground"] OrientationEnum.portrait
    = "spooky-playground-portrait" := by decide
example : cacheKey [] OrientationEnum.portrait = "-portrait" := by decide
example : cacheKey ["Cat!"] OrientationEnum.landscape = "cat-landscape" := by decide
example : matchDataUrl "data:image/png;base64,AAAA" = some ("png", "AAAA") := by decide
example : matchDataUrl "data:image/;base64,AAAA" = none := by decide
example : matchDataUrl "nonsense" = none := by decide
example : b64decode "AQID" = [1, 2, 3] := by decide
example : b64encode [1, 2, 3] = "AQID" := by decide

/-! ## Branch lemmas for the `FileCache` operations -/

theorem FileCache.has_absent (now : Nat) (id : String) (s : FileCache)
    (he : alGet s.index id = none) : FileCache.has now id s = (false, s) := by
  simp [FileCache.has, he]

theorem FileCache.has_expired (now : Nat) (id : String) (s : FileCache) (e : CacheEntry)
    (he : alGet s.index id = some e) (hexp : now - e.createdAt > e.ttl) :
    FileCache.has now id s = (false, FileCache.delete id s) := by
  simp [FileCache.has, he, hexp]

theorem FileCache.has_missing_file (now : Nat) (id : String) (s : FileCache) (e : CacheEntry)
    (he : alGet s.index id = some e) (hexp : ¬ now - e.createdAt > e.ttl)
    (hfs : alGet s.fs e.filePath = none) :
    FileCache.has now id s = (false, saveIndex { s with index := alRemove s.index id }) := by
  simp [FileCache.has, he, hexp, hfs]

theorem FileCache.has_live (now : Nat) (id : String) (s : FileCache) (e : CacheEntry)
    (he : alGet s.index id = some e) (hexp : ¬ now - e.createdAt > e.ttl)
    (hfs : (alGet s.fs e.filePath).isSome = true) :
    FileCache.has now id s = (true, s) := by
  simp [FileCache.has, he, hexp, hfs]

theorem FileCache.get_live (now : Nat) (id : String) (s : FileCache) (e : CacheEntry)
    (he : alGet s.index id = some e) (hexp : ¬ now - e.createdAt > e.ttl)
    (hfs : (alGet s.fs e.filePath).isSome = true) :
    FileCache.get now id s = (some e.filePath, s) := by
  simp [FileCache.get, FileCache.has_live now id s e he hexp hfs, he]

theorem FileCache.getFileUrl_live (now : Nat) (id : String) (s : FileCache) (e : CacheEntry)
    (he : alGet s.index id = some e) (hexp : ¬ now - e.createdAt > e.ttl)
    (hfs : (alGet s.fs e.filePath).isSome = true) :
    FileCache.getFileUrl now id s = (some ("file://" ++ e.filePath), s) := by
  simp [FileCache.getFileUrl, FileCache.get_live now id s e he hexp hfs]

theorem FileCache.getFileUrl_absent (now : Nat) (id : String) (s : FileCache)
    (he : alGet s.index id = none) : FileCache.getFileUrl now id s = (none, s) := by
  simp [FileCache.getFileUrl, FileCache.get, FileCache.has_absent now id s he]

theorem FileCache.setFromDataUrl_invalid (now : Nat) (id dataUrl : String)
    (ttlOpt : Option Nat) (s : FileCache) (h : matchDataUrl dataUrl = none) :
    FileCache.setFromDataUrl now id dataUrl ttlOpt s
      = (Except.error "Invalid data URL format", s) := by
  simp [FileCache.setFromDataUrl, h]

theorem FileCache.setFromDataUrl_valid (now : Nat) (id dataUrl : String)
    (ttlOpt : Option Nat) (s : FileCache) (format base64Data : String)
    (h : matchDataUrl dataUrl = some (format, base64Data)) :
    FileCache.setFromDataUrl now id dataUrl ttlOpt s
      = (Except.ok (s.cacheDir ++ "/" ++ md5hex id ++ "." ++ format),
         { cacheDir := s.cacheDir, defaultTTL := s.defaultTTL,
           index := alSet s.index id
             { id := id, filePath := s.cacheDir ++ "/" ++ md5hex id ++ "." ++ format,
               createdAt := now, ttl := ttlOrDefault ttlOpt s },
           diskIndex := alSet s.index id
             { id := id, filePath := s.cacheDir ++ "/" ++ md5hex id ++ "." ++ format,
               createdAt := now, ttl := ttlOrDefault ttlOpt s },
           fs := alSet s.fs (s.cacheDir ++ "/" ++ md5hex id ++ "." ++ format)
             (b64decode base64Data) }) := by
  simp [FileCache.setFromDataUrl, h, saveIndex]

theorem FileCache.delete_present (id : String) (s : FileCache) (e : CacheEntry)
    (he : alGet s.index id = some e) :
    FileCache.delete id s =
      saveIndex { s with
        fs := if (alGet s.fs e.filePath).isSome then alRemove s.fs e.filePath else s.fs,
        index := alRemove s.index id } := by
  simp [FileCache.delete, he]

/-- C2: `FileCache.has(key)` is true iff an index entry exists, its age does
not exceed its TTL, and its backing file exists; and an existing entry that
is expired or whose file is missing is purged from the index, the index is
persisted, and the call returns false. -/
theorem has_live_spec (now : Nat) (id : String) (s : FileCache) :
    ((FileCache.has now id s).1 = true ↔
      ∃ e, alGet s.index id = some e ∧ now - e.createdAt ≤ e.ttl ∧
        (alGet s.fs e.filePath).isSome = true) ∧
    (∀ e, alGet s.index id = some e →
      now - e.createdAt > e.ttl ∨ alGet s.fs e.filePath = none →
      (FileCache.has now id s).1 = false ∧
      alGet (FileCache.has now id s).2.index id = none ∧
      (FileCache.has now id s).2.diskIndex = (FileCache.has now id s).2.index) := by
  cases he : alGet s.index id with
  | none =>
    rw [FileCache.has_absent now id s he]
    constructor
    · simp [he]
    · intro e he2 _
      cases he2
  | some e =>
    by_cases hexp : now - e.createdAt > e.ttl
    · rw [FileCache.has_expired now id s e he hexp, FileCache.delete_present id s e he]
      constructor
      · constructor
        · intro h
          simp at h
        · rintro ⟨e2, he2, h2, _⟩
          injection he2 with he3
          subst he3
          exact absurd h2 (by omega)
      · intro e2 he2 _
        exact ⟨rfl, alGet_alRemove_self s.index id, rfl⟩
    · by_cases hfs : (alGet s.fs e.filePath).isSome = true
      · rw [FileCache.has_live now id s e he hexp hfs]
        constructor
        · constructor
          · intro _
            exact ⟨e, rfl, by omega, hfs⟩
          · intro _
            rfl
        · intro e2 he2 hbad
          injection he2 with he3
          subst he3
          rcases hbad with h | h
          · exact absurd h hexp
          · rw [h] at hfs
            simp at hfs
      · have hfs2 : alGet s.fs e.filePath = none := by
          cases hf : alGet s.fs e.filePath with
          | none => rfl
          | some b =>
            rw [hf] at hfs
            exact absurd rfl hfs
        rw [FileCache.has_missing_file now id s e he hexp hfs2]
        constructor
        · constructor
          · intro h
            simp at h
          · rintro ⟨e2, he2, _, hsome⟩
            injection he2 with he3
            subst he3
            rw [hfs2] at hsome
            cases hsome
        · intro e2 he2 _
          exact ⟨rfl, alGet_alRemove_self s.index id, rfl⟩

def hasWitnessState : FileCache :=
  { cacheDir := "/c", defaultTTL := 100,
    index := [("w2", { id := "w2", filePath := "/c/w2.png", createdAt := 0, ttl := 4 })],
    diskIndex := [("w2", { id := "w2", filePath := "/c/w2.png", createdAt := 0, ttl := 4 })],
    fs := [("/c/w2.png", [1])] }

theorem has_live_spec_witness :
    (FileCache.has 9 "w2" hasWitnessState).1 = false ∧
    alGet (FileCache.has 9 "w2" hasWitnessState).2.index "w2" = none := by
  have h := (has_live_spec 9 "w2" hasWitnessState).2
    { id := "w2", filePath := "/c/w2.png", createdAt := 0, ttl := 4 }
    (by decide) (Or.inl (by decide))
  exact ⟨h.1, h.2.1⟩

/-- C9: on an expired entry, `has` deletes the backing blob file in
addition to the index record (via `delete`); on a merely missing file it
removes only the index record; both purge branches persist the index. -/
theorem has_purge_branches (now : Nat) (id : String) (s : FileCache) (e : CacheEntry)
    (he : alGet s.index id = some e) :
    (now - e.createdAt > e.ttl →
      (FileCache.has now id s).2 = FileCache.delete id s ∧
      ((alGet s.fs e.filePath).isSome = true →
        alGet (FileCache.has now id s).2.fs e.filePath = none) ∧
      alGet (FileCache.has now id s).2.index id = none ∧
      (FileCache.has now id s).2.diskIndex = (FileCache.has now id s).2.index) ∧
    (¬ now - e.createdAt > e.ttl → alGet s.fs e.filePath = none →
      (FileCache.has now id s).2.fs = s.fs ∧
      alGet (FileCache.has now id s).2.index id = none ∧
      (FileCache.has now id s).2.diskIndex = (FileCache.has now id s).2.index) := by
  constructor
  · intro hexp
    rw [FileCache.has_expired now id s e he hexp, FileCache.delete_present id s e he]
    refine ⟨rfl, ?_, alGet_alRemove_self s.index id, rfl⟩
    intro hsome
    simp [saveIndex, hsome]
    exact alGet_alRemove_self s.fs e.filePath
  · intro hexp hnone
    rw [FileCache.has_missing_file now id s e he hexp hnone]
    exact ⟨rfl, alGet_alRemove_self s.index id, rfl⟩

def purgeWitnessState : FileCache :=
  { cacheDir := "/c", defaultTTL := 100,
    index := [("w9", { id := "w9", filePath := "/c/w9.png", createdAt := 0, ttl := 2 })],
    diskIndex := [("w9", { id := "w9", filePath := "/c/w9.png", createdAt := 0, ttl := 2 })],
    fs := [("/c/w9.png", [5])] }

theorem has_purge_branches_witness :
    alGet (FileCache.has 7 "w9" purgeWitnessState).2.fs "/c/w9.png" = none ∧
    alGet (FileCache.has 7 "w9" purgeWitnessState).2.index "w9" = none := by
  have h := (has_purge_branches 7 "w9" purgeWitnessState
    { id := "w9", filePath := "/c/w9.png", createdAt := 0, ttl := 2 } (by decide)).1
    (by decide)
  exact ⟨h.2.1 (by decide), h.2.2.1⟩

/-- C5: a data URL that does not match `data:image/<subtype>;base64,<payload>`
makes `setFromDataUrl` fail with `"Invalid data URL format"` before any
filesystem mutation: the returned state — in-memory index, persisted index
and cache directory contents — is exactly the input state. -/
theorem setFromDataUrl_invalid_fails_fast (now : Nat) (id dataUrl : String)
    (ttlOpt : Option Nat) (s : FileCache) (h : matchDataUrl dataUrl = none) :
    (FileCache.setFromDataUrl now id dataUrl ttlOpt s).1
        = Except.error "Invalid data URL format" ∧
    (FileCache.setFromDataUrl now id dataUrl ttlOpt s).2 = s := by
  rw [FileCache.setFromDataUrl_invalid now id dataUrl ttlOpt s h]
  exact ⟨rfl, rfl⟩

def emptyCache : FileCache :=
  { cacheDir := "/c", defaultTTL := 1000, index := [], diskIndex := [], fs := [] }

theorem setFromDataUrl_invalid_fails_fast_witness :
    matchDataUrl "not-a-data-url" = none ∧
    (FileCache.setFromDataUrl 5 "k" "not-a-data-url" none emptyCache).2 = emptyCache :=
  ⟨by decide,
   (setFromDataUrl_invalid_fails_fast 5 "k" "not-a-data-url" none emptyCache (by decide)).2⟩

/-- C10: for a live entry, `getDataUrl` always declares the media type
`image/png`, whatever subtype the content was stored under (the entry's
`filePath` extension and original format play no role in the label). -/
theorem getDataUrl_label_is_png (now : Nat) (id : String) (s : FileCache) (e : CacheEntry)
    (buf : List Nat) (he : alGet s.index id = some e)
    (hexp : ¬ now - e.createdAt > e.ttl) (hfs : alGet s.fs e.filePath = some buf) :
    (FileCache.getDataUrl now id s).1 = some ("data:image/png;base64," ++ b64encode buf) := by
  have hsome : (alGet s.fs e.filePath).isSome = true := by rw [hfs]; rfl
  simp [FileCache.getDataUrl, FileCache.get_live now id s e he hexp hsome, hfs]

/-- The state `FileCache.setFromDataUrl 0 "k" "data:image/jpeg;base64,AQID"`
produces on an empty cache: content stored under a `.jpeg` blob name. -/
def sampleJpegState : FileCache :=
  { cacheDir := "/c", defaultTTL := 1000,
    index := [("k", { id := "k", filePath := "/c/md5-k.jpeg", createdAt := 0, ttl := 1000 })],
    diskIndex := [("k", { id := "k", filePath := "/c/md5-k.jpeg", createdAt := 0, ttl := 1000 })],
    fs := [("/c/md5-k.jpeg", [1, 2, 3])] }

example : (FileCache.setFromDataUrl 0 "k" "data:image/jpeg;base64,AQID" none emptyCache).2
    = sampleJpegState := by decide

theorem getDataUrl_label_is_png_witness :
    (FileCache.getDataUrl 10 "k" sampleJpegState).1 = some "data:image/png;base64,AQID" := by
  rw [getDataUrl_label_is_png 10 "k" sampleJpegState
    { id := "k", filePath := "/c/md5-k.jpeg", createdAt := 0, ttl := 1000 } [1, 2, 3]
    (by decide) (by decide) (by decide)]
  decide

/-- C4: on a cache miss whose generated result cannot be cached (its url is
not a well-formed data URL, so `setFromDataUrl` throws), `findVideo`
swallows the failure and returns the generator's original asset unmodified,
with the cache state untouched; the error never reaches the caller. -/
theorem findVideo_write_failure_isolated
    (gen : List String → Nat → List String → OrientationEnum → Video)
    (terms : List String) (minDur : Nat) (excl : List String) (o : OrientationEnum)
    (now : Nat) (s : FileCache)
    (hmiss : alGet s.index (cacheKey terms o) = none)
    (hbad : matchDataUrl (gen terms minDur excl o).url = none) :
    CachedOpenAIImagesAPI.findVideo gen terms minDur excl o now s
      = (gen terms minDur excl o, s, 1) := by
  simp only [CachedOpenAIImagesAPI.findVideo,
    FileCache.getFileUrl_absent now (cacheKey terms o) s hmiss,
    FileCache.setFromDataUrl_invalid now (cacheKey terms o)
      (gen terms minDur excl o).url none s hbad]

def genBadUrl : List String → Nat → List String → OrientationEnum → Video :=
  fun _ _ _ _ => { id := "g1", url := "oops", width := 1080, height := 1920 }

theorem findVideo_write_failure_isolated_witness :
    CachedOpenAIImagesAPI.findVideo genBadUrl ["cat"] 3 [] OrientationEnum.portrait 0 emptyCache
      = (genBadUrl ["cat"] 3 [] OrientationEnum.portrait, emptyCache, 1) :=
  findVideo_write_failure_isolated genBadUrl ["cat"] 3 [] OrientationEnum.portrait 0 emptyCache
    (by decide) (by decide)

/-- C8 counterexample: for an empty search-term list the derived key is
`"-portrait"` — a leading hyphen followed by the orientation tag — not the
orientation tag alone. -/
theorem cacheKey_empty_terms_counterexample :
    cacheKey [] OrientationEnum.portrait = "-portrait" ∧
    cacheKey [] OrientationEnum.portrait ≠ orientationString OrientationEnum.portrait := by
  decide

/-- C8 amended: key derivation is total (a plain function), and for an
empty search-term list the derived key is a single hyphen followed by the
orientation tag. -/
theorem cacheKey_empty_terms (o : OrientationEnum) :
    cacheKey [] o = "-" ++ orientationString o := by
  cases o <;> decide

/-- C3 counterexample: key derivation is not injective in the search
terms — joining with `"-"` makes `["a-b"]` and `["a", "b"]` collide. -/
theorem cacheKey_collision_counterexample :
    cacheKey ["a-b"] OrientationEnum.portrait = cacheKey ["a", "b"] OrientationEnum.portrait ∧
    (["a-b"] : List String) ≠ ["a", "b"] := by
  decide

theorem cacheKey_data (t : List String) (o : OrientationEnum) :
    (cacheKey t o).data
      = (((String.intercalate "-" t ++ "-").data).filter isKeyChar).map Char.toLower
        ++ (orientationString o).data := by
  cases o
  · show (((String.intercalate "-" t ++ "-" ++ orientationString OrientationEnum.portrait :
        String)).data.filter isKeyChar).map Char.toLower = _
    rw [String.data_append, List.filter_append, List.map_append]
    congr 1
  · show (((String.intercalate "-" t ++ "-" ++ orientationString OrientationEnum.landscape :
        String)).data.filter isKeyChar).map Char.toLower = _
    rw [String.data_append, List.filter_append, List.map_append]
    congr 1

theorem cacheKey_getLast (t : List String) (o : OrientationEnum) :
    (cacheKey t o).data.getLast? = (orientationString o).data.getLast? := by
  rw [cacheKey_data]
  apply List.getLast?_append_of_ne_nil
  cases o <;> decide

/-- C3 amended: key derivation is deterministic (equal `(searchTerms,
orientation)` inputs give equal keys), and differing orientations always
give differing keys; but differing search terms may collide (see the
counterexample), so injectivity in the terms does not hold. -/
theorem cacheKey_stability (t1 t2 : List String) (o1 o2 : OrientationEnum) :
    (t1 = t2 → o1 = o2 → cacheKey t1 o1 = cacheKey t2 o2) ∧
    (o1 ≠ o2 → cacheKey t1 o1 ≠ cacheKey t2 o2) := by
  constructor
  · intro h1 h2
    rw [h1, h2]
  · intro hne heq
    have h2 : (cacheKey t1 o1).data.getLast? = (cacheKey t2 o2).data.getLast? := by rw [heq]
    rw [cacheKey_getLast, cacheKey_getLast] at h2
    cases o1 <;> cases o2
    · exact hne rfl
    · exact absurd h2 (by decide)
    · exact absurd h2 (by decide)
    · exact hne rfl

theorem cacheKey_stability_witness :
    cacheKey ["cat"] OrientationEnum.portrait ≠ cacheKey ["cat"] OrientationEnum.landscape :=
  (cacheKey_stability ["cat"] ["cat"] OrientationEnum.portrait OrientationEnum.landscape).2
    (by decide)

/-- The number of index entries that are live at `now` in the sense of the
spec's `hasLive`: not expired and backed by an existing file. Spec-side
definition, used to compare `getStats` against the claim. -/
def liveCount (now : Nat) (s : FileCache) : Nat :=
  (s.index.filter (fun kv =>
    decide (now - kv.2.createdAt ≤ kv.2.ttl) && (alGet s.fs kv.2.filePath).isSome)).length

/-- A cache whose single entry (TTL 3, created at 0) is expired at time 10
yet still present in the index with its backing file. -/
def statsCounterState : FileCache :=
  { cacheDir := "/c", defaultTTL := 100,
    index := [("k", { id := "k", filePath := "/c/f.png", createdAt := 0, ttl := 3 })],
    diskIndex := [("k", { id := "k", filePath := "/c/f.png", createdAt := 0, ttl := 3 })],
    fs := [("/c/f.png", [7, 7])] }

/-- C7 counterexample: `getStats` reports `size = 1` on a cache whose only
entry is expired (zero live entries at time 10) — the reported count is the
raw index size, not the number of live entries. -/
theorem getStats_counterexample :
    (FileCache.getStats statsCounterState).1 = 1 ∧ liveCount 10 statsCounterState = 0 := by
  decide

theorem statsFold_eq_sum (fs : List (String × List Nat)) (l : List (String × CacheEntry)) :
    ∀ acc : Nat,
      l.foldl
        (fun acc kv =>
          match alGet fs kv.2.filePath with
          | some buf => acc + buf.length
          | none => acc)
        acc
      = acc + (l.filterMap (fun kv => (alGet fs kv.2.filePath).map List.length)).sum := by
  induction l with
  | nil => intro acc; simp
  | cons kv rest ih =>
    intro acc
    cases h : alGet fs kv.2.filePath with
    | none => simp [List.foldl_cons, h, ih]
    | some buf =>
      simp only [List.foldl_cons, h, List.filterMap_cons, Option.map_some', List.sum_cons]
      rw [ih]
      exact Nat.add_assoc acc buf.length _

/-- C7 amended: `getStats` reports as its count the total number of index
entries — including expired entries and entries whose backing file is
missing — not the number of live ones; its `totalSizeBytes` is the sum of
the on-disk sizes of the entries whose file exists (missing files are
skipped). `getStats` reads but never mutates the cache state. -/
theorem getStats_spec (s : FileCache) :
    (FileCache.getStats s).1 = s.index.length ∧
    (FileCache.getStats s).2
      = (s.index.filterMap (fun kv => (alGet s.fs kv.2.filePath).map List.length)).sum := by
  refine ⟨rfl, ?_⟩
  show s.index.foldl _ 0 = _
  rw [statsFold_eq_sum s.fs s.index 0]
  omega

theorem findVideo_miss_success
    (gen : List String → Nat → List String → OrientationEnum → Video)
    (terms : List String) (minDur : Nat) (excl : List String) (o : OrientationEnum)
    (now : Nat) (s : FileCache) (format b64 : String)
    (hfresh : alGet s.index (cacheKey terms o) = none)
    (hm : matchDataUrl (gen terms minDur excl o).url = some (format, b64)) :
    CachedOpenAIImagesAPI.findVideo gen terms minDur excl o now s
      = ({ id := cacheKey terms o,
           url := "file://" ++ (s.cacheDir ++ "/" ++ md5hex (cacheKey terms o) ++ "." ++ format),
           width := (gen terms minDur excl o).width,
           height := (gen terms minDur excl o).height },
         { cacheDir := s.cacheDir, defaultTTL := s.defaultTTL,
           index := alSet s.index (cacheKey terms o)
             { id := cacheKey terms o,
               filePath := s.cacheDir ++ "/" ++ md5hex (cacheKey terms o) ++ "." ++ format,
               createdAt := now, ttl := s.defaultTTL },
           diskIndex := alSet s.index (cacheKey terms o)
             { id := cacheKey terms o,
               filePath := s.cacheDir ++ "/" ++ md5hex (cacheKey terms o) ++ "." ++ format,
               createdAt := now, ttl := s.defaultTTL },
           fs := alSet s.fs (s.cacheDir ++ "/" ++ md5hex (cacheKey terms o) ++ "." ++ format)
             (b64decode b64) },
         1) := by
  have hfu0 := FileCache.getFileUrl_absent now (cacheKey terms o) s hfresh
  have hset := FileCache.setFromDataUrl_valid now (cacheKey terms o)
    (gen terms minDur excl o).url none s format b64 hm
  have hfu1 := FileCache.getFileUrl_live now (cacheKey terms o)
    { cacheDir := s.cacheDir, defaultTTL := s.defaultTTL,
      index := alSet s.index (cacheKey terms o)
        { id := cacheKey terms o,
          filePath := s.cacheDir ++ "/" ++ md5hex (cacheKey terms o) ++ "." ++ format,
          createdAt := now, ttl := s.defaultTTL },
      diskIndex := alSet s.index (cacheKey terms o)
        { id := cacheKey terms o,
          filePath := s.cacheDir ++ "/" ++ md5hex (cacheKey terms o) ++ "." ++ format,
          createdAt := now, ttl := s.defaultTTL },
      fs := alSet s.fs (s.cacheDir ++ "/" ++ md5hex (cacheKey terms o) ++ "." ++ format)
        (b64decode b64) }
    { id := cacheKey terms o,
      filePath := s.cacheDir ++ "/" ++ md5hex (cacheKey terms o) ++ "." ++ format,
      createdAt := now, ttl := s.defaultTTL }
    (alGet_alSet_self _ _ _)
    (by show ¬ now - now > s.defaultTTL; omega)
    (by show (alGet (alSet s.fs _ _) _).isSome = true; rw [alGet_alSet_self]; rfl)
  simp only [CachedOpenAIImagesAPI.findVideo, hfu0, hset, ttlOrDefault, hfu1]

theorem findVideo_hit
    (gen : List String → Nat → List String → OrientationEnum → Video)
    (terms : List String) (minDur : Nat) (excl : List String) (o : OrientationEnum)
    (now : Nat) (s : FileCache) (e : CacheEntry)
    (he : alGet s.index (cacheKey terms o) = some e)
    (hexp : ¬ now - e.createdAt > e.ttl)
    (hfs : (alGet s.fs e.filePath).isSome = true) :
    CachedOpenAIImagesAPI.findVideo gen terms minDur excl o now s
      = ({ id := cacheKey terms o, url := "file://" ++ e.filePath,
           width := if o = OrientationEnum.portrait then 1080 else 1920,
           height := if o = OrientationEnum.portrait then 1920 else 1080 },
         s, 0) := by
  simp only [CachedOpenAIImagesAPI.findVideo,
    FileCache.getFileUrl_live now (cacheKey terms o) s e he hexp hfs]

/-- C1: two successive `findVideo` calls with identical search terms and
orientation, where the first call starts from a cache with no entry for the
derived key and its generated result is a well-formed data URL (so the
write-back succeeds), and the second call happens within the default TTL of
the written entry: the second call invokes the generator zero times,
returns the same `id` and the very same `file://` url as the first call,
and leaves every cached file's bytes untouched — so the returned url
resolves to byte-identical content. -/
theorem findVideo_second_call_cached
    (gen : List String → Nat → List String → OrientationEnum → Video)
    (terms : List String) (minDur : Nat) (excl : List String) (o : OrientationEnum)
    (t1 t2 : Nat) (s0 : FileCache) (format b64 : String)
    (hfresh : alGet s0.index (cacheKey terms o) = none)
    (hm : matchDataUrl (gen terms minDur excl o).url = some (format, b64))
    (_h12 : t1 ≤ t2) (httl : t2 - t1 ≤ s0.defaultTTL) :
    (CachedOpenAIImagesAPI.findVideo gen terms minDur excl o t2
        (CachedOpenAIImagesAPI.findVideo gen terms minDur excl o t1 s0).2.1).2.2 = 0 ∧
    (CachedOpenAIImagesAPI.findVideo gen terms minDur excl o t2
        (CachedOpenAIImagesAPI.findVideo gen terms minDur excl o t1 s0).2.1).1.id
      = (CachedOpenAIImagesAPI.findVideo gen terms minDur excl o t1 s0).1.id ∧
    (CachedOpenAIImagesAPI.findVideo gen terms minDur excl o t2
        (CachedOpenAIImagesAPI.findVideo gen terms minDur excl o t1 s0).2.1).1.url
      = (CachedOpenAIImagesAPI.findVideo gen terms minDur excl o t1 s0).1.url ∧
    (CachedOpenAIImagesAPI.findVideo gen terms minDur excl o t2
        (CachedOpenAIImagesAPI.findVideo gen terms minDur excl o t1 s0).2.1).2.1.fs
      = (CachedOpenAIImagesAPI.findVideo gen terms minDur excl o t1 s0).2.1.fs := by
  have h1 := findVideo_miss_success gen terms minDur excl o t1 s0 format b64 hfresh hm
  have h2 := findVideo_hit gen terms minDur excl o t2
    { cacheDir := s0.cacheDir, defaultTTL := s0.defaultTTL,
      index := alSet s0.index (cacheKey terms o)
        { id := cacheKey terms o,
          filePath := s0.cacheDir ++ "/" ++ md5hex (cacheKey terms o) ++ "." ++ format,
          createdAt := t1, ttl := s0.defaultTTL },
      diskIndex := alSet s0.index (cacheKey terms o)
        { id := cacheKey terms o,
          filePath := s0.cacheDir ++ "/" ++ md5hex (cacheKey terms o) ++ "." ++ format,
          createdAt := t1, ttl := s0.defaultTTL },
      fs := alSet s0.fs (s0.cacheDir ++ "/" ++ md5hex (cacheKey terms o) ++ "." ++ format)
        (b64decode b64) }
    { id := cacheKey terms o,
      filePath := s0.cacheDir ++ "/" ++ md5hex (cacheKey terms o) ++ "." ++ format,
      createdAt := t1, ttl := s0.defaultTTL }
    (alGet_alSet_self _ _ _)
    (by show ¬ t2 - t1 > s0.defaultTTL; omega)
    (by show (alGet (alSet s0.fs _ _) _).isSome = true; rw [alGet_alSet_self]; rfl)
  rw [h1]
  refine ⟨?_, ?_, ?_, ?_⟩ <;> simp only [h2]

def genGood : List String → Nat → List String → OrientationEnum → Video :=
  fun _ _ _ _ => { id := "gen1", url := "data:image/png;base64,AQID", width := 1080, height := 1920 }

theorem findVideo_second_call_cached_witness :
    (CachedOpenAIImagesAPI.findVideo genGood ["cat"] 3 [] OrientationEnum.portrait 5
        (CachedOpenAIImagesAPI.findVideo genGood ["cat"] 3 [] OrientationEnum.portrait 0
          emptyCache).2.1).2.2 = 0 ∧
    (CachedOpenAIImagesAPI.findVideo genGood ["cat"] 3 [] OrientationEnum.portrait 5
        (CachedOpenAIImagesAPI.findVideo genGood ["cat"] 3 [] OrientationEnum.portrait 0
          emptyCache).2.1).1.id
      = (CachedOpenAIImagesAPI.findVideo genGood ["cat"] 3 [] OrientationEnum.portrait 0
          emptyCache).1.id ∧
    (CachedOpenAIImagesAPI.findVideo genGood ["cat"] 3 [] OrientationEnum.portrait 5
        (CachedOpenAIImagesAPI.findVideo genGood ["cat"] 3 [] OrientationEnum.portrait 0
          emptyCache).2.1).1.url
      = (CachedOpenAIImagesAPI.findVideo genGood ["cat"] 3 [] OrientationEnum.portrait 0
          emptyCache).1.url ∧
    (CachedOpenAIImagesAPI.findVideo genGood ["cat"] 3 [] OrientationEnum.portrait 5
        (CachedOpenAIImagesAPI.findVideo genGood ["cat"] 3 [] OrientationEnum.portrait 0
          emptyCache).2.1).2.1.fs
      = (CachedOpenAIImagesAPI.findVideo genGood ["cat"] 3 [] OrientationEnum.portrait 0
          emptyCache).2.1.fs :=
  findVideo_second_call_cached genGood ["cat"] 3 [] OrientationEnum.portrait 0 5 emptyCache
    "png" "AQID" (by decide) (by decide) (by decide) (by decide)

/-! ## Cleanup -/

theorem not_isSome_eq_none {β : Type} (x : Option β) (h : ¬ x.isSome = true) : x = none := by
  cases x with
  | none => rfl
  | some v => exact absurd rfl h

theorem FileCache.alGet_delete_index_self (id : String) (s : FileCache) :
    alGet (FileCache.delete id s).index id = none := by
  cases he : alGet s.index id with
  | none => simp [FileCache.delete, he]
  | some e => simp [FileCache.delete, he, saveIndex, alGet_alRemove_self]

theorem FileCache.alGet_delete_index_ne (id k : String) (s : FileCache) (h : id ≠ k) :
    alGet (FileCache.delete id s).index k = alGet s.index k := by
  cases he : alGet s.index id with
  | none => simp [FileCache.delete, he]
  | some e => simp [FileCache.delete, he, saveIndex, alGet_alRemove_ne _ _ _ h]

theorem FileCache.delete_fs_self (id : String) (s : FileCache) (e : CacheEntry)
    (he : alGet s.index id = some e) :
    alGet (FileCache.delete id s).fs e.filePath = none := by
  by_cases hf : (alGet s.fs e.filePath).isSome = true
  · simp [FileCache.delete, he, saveIndex, hf, alGet_alRemove_self]
  · simp [FileCache.delete, he, saveIndex, hf, not_isSome_eq_none _ hf]

theorem FileCache.delete_fs_other (id : String) (s : FileCache) (e : CacheEntry) (p : String)
    (he : alGet s.index id = some e) (hp : e.filePath ≠ p) :
    alGet (FileCache.delete id s).fs p = alGet s.fs p := by
  by_cases hf : (alGet s.fs e.filePath).isSome = true
  · simp [FileCache.delete, he, saveIndex, hf, alGet_alRemove_ne _ _ _ hp]
  · simp [FileCache.delete, he, saveIndex, hf]

theorem FileCache.delete_fs_none_mono (id p : String) (s : FileCache)
    (h : alGet s.fs p = none) : alGet (FileCache.delete id s).fs p = none := by
  cases he : alGet s.index id with
  | none => simp [FileCache.delete, he, h]
  | some e =>
    by_cases hf : (alGet s.fs e.filePath).isSome = true
    · simp [FileCache.delete, he, saveIndex, hf, alGet_alRemove_none _ _ _ h]
    · simp [FileCache.delete, he, saveIndex, hf, h]

theorem alGet_of_mem_nodup {β : Type} (m : List (String × β))
    (hk : (m.map Prod.fst).Nodup) : ∀ kv ∈ m, alGet m kv.1 = some kv.2 := by
  induction m with
  | nil =>
    intro kv h
    cases h
  | cons p rest ih =>
    obtain ⟨k0, v0⟩ := p
    intro kv hm
    rcases List.mem_cons.mp hm with h | h
    · subst h
      simp
    · have hne : ¬ k0 = kv.1 := by
        intro heq
        have hmem : kv.1 ∈ rest.map Prod.fst := List.mem_map_of_mem Prod.fst h
        rw [← heq] at hmem
        exact (List.nodup_cons.mp hk).1 hmem
      simp only [alGet_cons, hne, if_false]
      exact ih (List.nodup_cons.mp hk).2 kv h

/-- The loop body of `FileCache.cleanup`, folded over a list of entries. -/
def cleanupFold (now : Nat) (l : List (String × CacheEntry)) (acc : Nat × FileCache) :
    Nat × FileCache :=
  l.foldl
    (fun acc kv =>
      if now - kv.2.createdAt > kv.2.ttl then (acc.1 + 1, FileCache.delete kv.1 acc.2)
      else acc)
    acc

theorem cleanup_eq_cleanupFold (now : Nat) (s : FileCache) :
    FileCache.cleanup now s = cleanupFold now s.index (0, s) := rfl

theorem cleanupFold_spec (now : Nat) (l : List (String × CacheEntry)) :
    ∀ (n : Nat) (t : FileCache),
      (∀ kv ∈ l, alGet t.index kv.1 = some kv.2) →
      (l.map Prod.fst).Nodup →
      (l.map (fun kv => kv.2.filePath)).Nodup →
      (cleanupFold now l (n, t)).1
          = n + (l.filter (fun kv => decide (now - kv.2.createdAt > kv.2.ttl))).length ∧
      (∀ k : String,
        alGet (cleanupFold now l (n, t)).2.index k
          = if l.any (fun kv => k = kv.1 && decide (now - kv.2.createdAt > kv.2.ttl)) = true
            then none else alGet t.index k) ∧
      (∀ p : String,
        alGet (cleanupFold now l (n, t)).2.fs p
          = if l.any (fun kv => p = kv.2.filePath && decide (now - kv.2.createdAt > kv.2.ttl))
              = true
            then none else alGet t.fs p) := by
  induction l with
  | nil =>
    intro n t _ _ _
    refine ⟨by simp [cleanupFold], ?_, ?_⟩
    · intro k
      simp [cleanupFold]
    · intro p
      simp [cleanupFold]
  | cons kv l ih =>
    intro n t hinv hkeys hpaths
    have hkv : alGet t.index kv.1 = some kv.2 := hinv kv (List.mem_cons_self kv l)
    have hkeys2 := (List.nodup_cons.mp hkeys).2
    have hpaths2 := (List.nodup_cons.mp hpaths).2
    have hknotin : kv.1 ∉ l.map Prod.fst := (List.nodup_cons.mp hkeys).1
    have hpnotin : kv.2.filePath ∉ l.map (fun kv2 => kv2.2.filePath) :=
      (List.nodup_cons.mp hpaths).1
    by_cases hexp : now - kv.2.createdAt > kv.2.ttl
    · have hstep : cleanupFold now (kv :: l) (n, t)
          = cleanupFold now l (n + 1, FileCache.delete kv.1 t) := by
        simp [cleanupFold, hexp]
      have hinv2 : ∀ kv2 ∈ l, alGet (FileCache.delete kv.1 t).index kv2.1 = some kv2.2 := by
        intro kv2 h2
        have hne : kv.1 ≠ kv2.1 := by
          intro heq
          rw [heq] at hknotin
          exact hknotin (List.mem_map_of_mem Prod.fst h2)
        rw [FileCache.alGet_delete_index_ne kv.1 kv2.1 t hne]
        exact hinv kv2 (List.mem_cons_of_mem kv h2)
      obtain ⟨ihc, ihidx, ihfs⟩ := ih (n + 1) (FileCache.delete kv.1 t) hinv2 hkeys2 hpaths2
      refine ⟨?_, ?_, ?_⟩
      · rw [hstep, ihc]
        simp [List.filter_cons, hexp]
        omega
      · intro k
        rw [hstep, ihidx k]
        by_cases hk : k = kv.1
        · have hany : l.any
              (fun kv2 => k = kv2.1 && decide (now - kv2.2.createdAt > kv2.2.ttl)) = false := by
            rw [List.any_eq_false]
            intro kv2 h2
            simp only [Bool.and_eq_true, decide_eq_true_eq, not_and]
            intro heq _
            rw [hk] at heq
            rw [heq] at hknotin
            exact hknotin (List.mem_map_of_mem Prod.fst h2)
          simp [hany, List.any_cons, hk, hexp, FileCache.alGet_delete_index_self]
        · have hne : kv.1 ≠ k := fun h => hk h.symm
          cases hAny : l.any
              (fun kv2 => k = kv2.1 && decide (now - kv2.2.createdAt > kv2.2.ttl)) with
          | true => simp [List.any_cons, hAny]
          | false => simp [List.any_cons, hAny, hk, FileCache.alGet_delete_index_ne kv.1 k t hne]
      · intro p
        rw [hstep, ihfs p]
        by_cases hp : p = kv.2.filePath
        · have hany : l.any
              (fun kv2 => p = kv2.2.filePath && decide (now - kv2.2.createdAt > kv2.2.ttl))
                = false := by
            rw [List.any_eq_false]
            intro kv2 h2
            simp only [Bool.and_eq_true, decide_eq_true_eq, not_and]
            intro heq _
            rw [hp] at heq
            rw [heq] at hpnotin
            exact hpnotin (List.mem_map_of_mem (fun kv2 => kv2.2.filePath) h2)
          simp [hany, List.any_cons, hp, hexp, FileCache.delete_fs_self kv.1 t kv.2 hkv]
        · have hne : kv.2.filePath ≠ p := fun h => hp h.symm
          cases hAny : l.any
              (fun kv2 => p = kv2.2.filePath && decide (now - kv2.2.createdAt > kv2.2.ttl)) with
          | true => simp [List.any_cons, hAny]
          | false => simp [List.any_cons, hAny, hp, FileCache.delete_fs_other kv.1 t kv.2 p hkv hne]
    · have hstep : cleanupFold now (kv :: l) (n, t) = cleanupFold now l (n, t) := by
        simp [cleanupFold, hexp]
      have hinv2 : ∀ kv2 ∈ l, alGet t.index kv2.1 = some kv2.2 :=
        fun kv2 h2 => hinv kv2 (List.mem_cons_of_mem kv h2)
      obtain ⟨ihc, ihidx, ihfs⟩ := ih n t hinv2 hkeys2 hpaths2
      refine ⟨?_, ?_, ?_⟩
      · rw [hstep, ihc]
        simp [List.filter_cons, hexp]
      · intro k
        rw [hstep, ihidx k]
        cases hAny : l.any
            (fun kv2 => k = kv2.1 && decide (now - kv2.2.createdAt > kv2.2.ttl)) with
        | true => simp [List.any_cons, hAny]
        | false => simp [List.any_cons, hAny, hexp]
      · intro p
        rw [hstep, ihfs p]
        cases hAny : l.any
            (fun kv2 => p = kv2.2.filePath && decide (now - kv2.2.createdAt > kv2.2.ttl)) with
        | true => simp [List.any_cons, hAny]
        | false => simp [List.any_cons, hAny, hexp]

/-- C6: when the index holds N entries of which exactly M are expired (age
strictly exceeding TTL) at call time, `cleanup` reports M as the deleted
count it logs, removes exactly the expired entries — index records and
backing blob files — and leaves the remaining N − M entries in the index
with their file contents untouched, still resolvable via `getFileUrl` when
their file exists. Hypotheses: index keys and entry file paths are
duplicate-free, as a `Map`-backed index with digest-named files maintains. -/
theorem cleanup_removes_exactly_expired (now : Nat) (s : FileCache)
    (hkeys : (s.index.map Prod.fst).Nodup)
    (hpaths : (s.index.map (fun kv => kv.2.filePath)).Nodup) :
    (FileCache.cleanup now s).1
        = (s.index.filter (fun kv => decide (now - kv.2.createdAt > kv.2.ttl))).length ∧
    (∀ kv ∈ s.index, now - kv.2.createdAt > kv.2.ttl →
      alGet (FileCache.cleanup now s).2.index kv.1 = none ∧
      alGet (FileCache.cleanup now s).2.fs kv.2.filePath = none) ∧
    (∀ kv ∈ s.index, ¬ now - kv.2.createdAt > kv.2.ttl →
      alGet (FileCache.cleanup now s).2.index kv.1 = some kv.2 ∧
      alGet (FileCache.cleanup now s).2.fs kv.2.filePath = alGet s.fs kv.2.filePath ∧
      ((alGet s.fs kv.2.filePath).isSome = true →
        (FileCache.getFileUrl now kv.1 (FileCache.cleanup now s).2).1
          = some ("file://" ++ kv.2.filePath))) := by
  have hinv : ∀ kv ∈ s.index, alGet s.index kv.1 = some kv.2 :=
    alGet_of_mem_nodup s.index hkeys
  obtain ⟨hc, hidx, hfs⟩ := cleanupFold_spec now s.index 0 s hinv hkeys hpaths
  rw [cleanup_eq_cleanupFold]
  refine ⟨by rw [hc]; omega, ?_, ?_⟩
  · intro kv hm hexp
    constructor
    · have hAny : s.index.any
          (fun kv2 => kv.1 = kv2.1 && decide (now - kv2.2.createdAt > kv2.2.ttl)) = true := by
        rw [List.any_eq_true]
        exact ⟨kv, hm, by simp [hexp]⟩
      simp [hidx kv.1, hAny]
    · have hAny : s.index.any
          (fun kv2 => kv.2.filePath = kv2.2.filePath
            && decide (now - kv2.2.createdAt > kv2.2.ttl)) = true := by
        rw [List.any_eq_true]
        exact ⟨kv, hm, by simp [hexp]⟩
      simp [hfs kv.2.filePath, hAny]
  · intro kv hm hexp
    have hAnyIdx : s.index.any
        (fun kv2 => kv.1 = kv2.1 && decide (now - kv2.2.createdAt > kv2.2.ttl)) = false := by
      rw [List.any_eq_false]
      intro kv2 h2
      simp only [Bool.and_eq_true, decide_eq_true_eq, not_and]
      intro heq hx
      have hsame : kv = kv2 := List.inj_on_of_nodup_map hkeys hm h2 heq
      rw [← hsame] at hx
      exact hexp hx
    have hAnyFs : s.index.any
        (fun kv2 => kv.2.filePath = kv2.2.filePath
          && decide (now - kv2.2.createdAt > kv2.2.ttl)) = false := by
      rw [List.any_eq_false]
      intro kv2 h2
      simp only [Bool.and_eq_true, decide_eq_true_eq, not_and]
      intro heq hx
      have hsame : kv = kv2 := List.inj_on_of_nodup_map hpaths hm h2 heq
      rw [← hsame] at hx
      exact hexp hx
    have h1 : alGet (cleanupFold now s.index (0, s)).2.index kv.1 = some kv.2 := by
      simp [hidx kv.1, hAnyIdx, hinv kv hm]
    have h2 : alGet (cleanupFold now s.index (0, s)).2.fs kv.2.filePath
        = alGet s.fs kv.2.filePath := by
      simp [hfs kv.2.filePath, hAnyFs]
    refine ⟨h1, h2, ?_⟩
    intro hsome
    have hsome2 : (alGet (cleanupFold now s.index (0, s)).2.fs kv.2.filePath).isSome = true := by
      rw [h2]
      exact hsome
    rw [FileCache.getFileUrl_live now kv.1 (cleanupFold now s.index (0, s)).2 kv.2 h1 hexp hsome2]

def cleanupWitnessState : FileCache :=
  { cacheDir := "/c", defaultTTL := 100,
    index := [("old", { id := "old", filePath := "/c/old.png", createdAt := 0, ttl := 2 }),
              ("live1", { id := "live1", filePath := "/c/live1.png", createdAt := 8, ttl := 100 })],
    diskIndex := [("old", { id := "old", filePath := "/c/old.png", createdAt := 0, ttl := 2 }),
                  ("live1", { id := "live1", filePath := "/c/live1.png", createdAt := 8, ttl := 100 })],
    fs := [("/c/old.png", [1]), ("/c/live1.png", [2, 2])] }

theorem cleanup_removes_exactly_expired_witness :
    (FileCache.cleanup 10 cleanupWitnessState).1 = 1 ∧
    alGet (FileCache.cleanup 10 cleanupWitnessState).2.index "old" = none ∧
    alGet (FileCache.cleanup 10 cleanupWitnessState).2.index "live1"
      = some { id := "live1", filePath := "/c/live1.png", createdAt := 8, ttl := 100 } := by
  have h := cleanup_removes_exactly_expired 10 cleanupWitnessState (by decide) (by decide)
  refine ⟨?_, ?_, ?_⟩
  · rw [h.1]
    decide
  · exact (h.2.1 ("old", { id := "old", filePath := "/c/old.png", createdAt := 0, ttl := 2 })
      (by decide) (by decide)).1
  · exact (h.2.2 ("live1", { id := "live1", filePath := "/c/live1.png", createdAt := 8, ttl := 100 })
      (by decide) (by decide)).1
